import Mathlib

/-!
Verification of the CLV (Customer Lifetime Value) engine of the
`CLV_Analysis` repository (`src/CLV_Analysis/Models/CLTV.py`), against its
natural-language specification.

The `CLTVModel` class is shallowly embedded here:
  * a sales line (one row of the loaded DataFrame) becomes `SalesRow`,
    and the DataFrame becomes `SalesTable` (rows plus column-presence flags
    for the columns the code tests with `col in df.columns`);
  * monetary quantities are rationals (`ℚ`), dates are integer day numbers
    (`ℤ`), matching the day-granular `date` dimension of the schema;
  * pandas Series keyed by `customer_id` become association lists
    `List (Nat × ℚ)`, and the pandas index-aligned assignment/selection is
    embedded by lookup on the `customer_id` key;
  * Python functions that may `raise` return `Except PdError _`;
  * the statistical fitting performed by the third-party `lifetimes`
    library is out of the repository; only its data-flow interface is
    embedded (which columns are handed to `fit`, and the fact — used by its
    `customer_lifetime_value` — that the result carries one value per entry
    of the `frequency` argument, per the library contract the spec restates
    as "one CLV scalar per customer").
-/

namespace CLV

/-- Errors: the code itself only ever raises Python `ValueError` (directly
or via pandas); the other constructors name the error classes the spec
postulates, so that theorems can distinguish them. None of the spec's
classes are defined anywhere in the repository. -/
inductive PdError where
  | valueError : String → PdError
  | missingColumnError : PdError
  | emptyDatasetError : PdError
  | preconditionError : PdError
  | insufficientDataError : PdError
deriving DecidableEq

/-- One row of the loaded sales DataFrame (`load_data` query columns that
the CLV pipeline reads), plus the `sales_amount` column which is absent
(`none`) until `calculate_sales_amount` adds it. -/
structure SalesRow where
  customer_id : Nat
  transaction_id : Nat
  date : Int
  quantity : ℚ
  unit_price : ℚ
  sales_amount : Option ℚ
deriving DecidableEq

/-- The loaded DataFrame: rows plus presence flags for the two columns
`calculate_sales_amount` tests with `col in df.columns`. -/
structure SalesTable where
  rows : List SalesRow
  has_unit_price : Bool
  has_quantity : Bool
deriving DecidableEq

/-- Embeds `CLTVModel.calculate_sales_amount` (CLTV.py lines 142-164): raises
`ValueError` when the `unit_price` or `quantity` column is absent, else
assigns `df[sales_amount] = df[unit_price] * df[quantity]` row-wise and
returns the frame. The source has no emptiness check. -/
def calculate_sales_amount (df : SalesTable) : Except PdError SalesTable :=
  if df.has_unit_price = false then
    .error (.valueError "The unit_price column is required.")
  else if df.has_quantity = false then
    .error (.valueError "The quantity column is required.")
  else
    .ok { df with
          rows := df.rows.map fun r =>
            { r with sales_amount := some (r.unit_price * r.quantity) } }

/-- C3: for every input table containing the unit_price and quantity
columns, `calculate_sales_amount` succeeds, keeps the row count, and every
output row has `sales_amount = unit_price * quantity` exactly while every
other field (customer_id, transaction_id, date, quantity, unit_price) of
the row, and the column flags of the table, are unchanged. -/
theorem C3_sales_amount_exact (df : SalesTable)
    (h1 : df.has_unit_price = true) (h2 : df.has_quantity = true) :
    ∃ out, calculate_sales_amount df = .ok out ∧
      out.has_unit_price = df.has_unit_price ∧
      out.has_quantity = df.has_quantity ∧
      out.rows.length = df.rows.length ∧
      ∀ i : Fin out.rows.length, ∃ hlt : i.val < df.rows.length,
        (out.rows.get i).sales_amount =
            some ((df.rows.get ⟨i.val, hlt⟩).unit_price *
                  (df.rows.get ⟨i.val, hlt⟩).quantity) ∧
        (out.rows.get i).customer_id = (df.rows.get ⟨i.val, hlt⟩).customer_id ∧
        (out.rows.get i).transaction_id
            = (df.rows.get ⟨i.val, hlt⟩).transaction_id ∧
        (out.rows.get i).date = (df.rows.get ⟨i.val, hlt⟩).date ∧
        (out.rows.get i).quantity = (df.rows.get ⟨i.val, hlt⟩).quantity ∧
        (out.rows.get i).unit_price = (df.rows.get ⟨i.val, hlt⟩).unit_price := by
  refine ⟨{ df with rows := df.rows.map fun r =>
      { r with sales_amount := some (r.unit_price * r.quantity) } },
    ?_, rfl, rfl, by simp, ?_⟩
  · simp [calculate_sales_amount, h1, h2]
  · intro i
    have hlt : i.val < df.rows.length := by simpa using i.isLt
    refine ⟨hlt, ?_⟩
    simp [List.get_eq_getElem, List.getElem_map]

/-- A concrete one-row sales table used to witness C3. -/
def dfC3 : SalesTable := ⟨[⟨1, 10, 0, 3, 5, none⟩], true, true⟩

/-- Witness for C3 at a concrete one-row table. -/
theorem C3_sales_amount_exact_witness :
    ∃ out, calculate_sales_amount dfC3 = .ok out ∧
      out.has_unit_price = dfC3.has_unit_price ∧
      out.has_quantity = dfC3.has_quantity ∧
      out.rows.length = dfC3.rows.length ∧
      ∀ i : Fin out.rows.length, ∃ hlt : i.val < dfC3.rows.length,
        (out.rows.get i).sales_amount =
            some ((dfC3.rows.get ⟨i.val, hlt⟩).unit_price *
                  (dfC3.rows.get ⟨i.val, hlt⟩).quantity) ∧
        (out.rows.get i).customer_id = (dfC3.rows.get ⟨i.val, hlt⟩).customer_id ∧
        (out.rows.get i).transaction_id
            = (dfC3.rows.get ⟨i.val, hlt⟩).transaction_id ∧
        (out.rows.get i).date = (dfC3.rows.get ⟨i.val, hlt⟩).date ∧
        (out.rows.get i).quantity = (dfC3.rows.get ⟨i.val, hlt⟩).quantity ∧
        (out.rows.get i).unit_price = (dfC3.rows.get ⟨i.val, hlt⟩).unit_price :=
  C3_sales_amount_exact dfC3 rfl rfl

/-- C6 counterexample: on the zero-row table with both required columns
present, `calculate_sales_amount` raises nothing at all — it returns the
(still empty) frame with the `sales_amount` column added — so it does not
raise an `EmptyDatasetError` (nor any other error) on empty input. -/
theorem C6_empty_input_counterexample :
    calculate_sales_amount ⟨[], true, true⟩
      = .ok (⟨[], true, true⟩ : SalesTable) := rfl

/-- C6 amended: for a zero-row input table with both source columns
present, `calculate_sales_amount` raises no error (the source has no
emptiness check and no `EmptyDatasetError` class exists in the
repository); it returns the zero-row table with the `sales_amount` column
assigned (vacuously). -/
theorem C6_empty_input_no_error (df : SalesTable)
    (h1 : df.has_unit_price = true) (h2 : df.has_quantity = true)
    (h0 : df.rows = []) :
    ∃ out, calculate_sales_amount df = .ok out ∧ out.rows = [] := by
  refine ⟨{ df with rows := [] }, ?_, rfl⟩
  simp [calculate_sales_amount, h1, h2, h0]

/-- Witness for the amended C6 at the concrete empty table. -/
theorem C6_empty_input_no_error_witness :
    ∃ out, calculate_sales_amount ⟨[], true, true⟩ = .ok out ∧
      out.rows = [] :=
  C6_empty_input_no_error ⟨[], true, true⟩ rfl rfl rfl

/-! ## RFM builder (`calculate_cltv_pr` and helpers) -/

/-- Maximum of a list of dates (`InvoiceDate.max()`); `0` on the empty
list, which the pipeline never hits (groupby groups are nonempty). -/
def listMax : List Int → Int
  | [] => 0
  | [x] => x
  | x :: y :: t => max x (listMax (y :: t))

/-- Minimum of a list of dates (`InvoiceDate.min()`). -/
def listMin : List Int → Int
  | [] => 0
  | [x] => x
  | x :: y :: t => min x (listMin (y :: t))

theorem le_listMax {x : Int} : ∀ {l : List Int}, x ∈ l → x ≤ listMax l
  | [], h => by cases h
  | [y], h => by
      cases h with
      | head => simp [listMax]
      | tail _ h' => cases h'
  | y :: z :: t, h => by
      cases h with
      | head => simp [listMax]
      | tail _ h' =>
          have := le_listMax (l := z :: t) h'
          simp only [listMax]
          exact le_max_of_le_right this

theorem listMin_le {x : Int} : ∀ {l : List Int}, x ∈ l → listMin l ≤ x
  | [], h => by cases h
  | [y], h => by
      cases h with
      | head => simp [listMin]
      | tail _ h' => cases h'
  | y :: z :: t, h => by
      cases h with
      | head => simp [listMin]
      | tail _ h' =>
          have := listMin_le (l := z :: t) h'
          simp only [listMin]
          exact le_trans (min_le_right _ _) this

theorem listMax_mem : ∀ {l : List Int}, l ≠ [] → listMax l ∈ l
  | [], h => absurd rfl h
  | [x], _ => by simp [listMax]
  | x :: y :: t, _ => by
      simp only [listMax]
      rcases max_choice x (listMax (y :: t)) with h | h
      · rw [h]; exact List.mem_cons_self _ _
      · rw [h]
        exact List.mem_cons_of_mem _ (listMax_mem (by simp))

/-- Embeds `CLTVModel._calculate_recency_T` (lines 496-507): for the invoice dates
of one customer, `(InvoiceDate.max() - InvoiceDate.min()).days`. -/
def _calculate_recency_T (InvoiceDate : List Int) : Int :=
  listMax InvoiceDate - listMin InvoiceDate

/-- Embeds `CLTVModel._calculate_recency_today` (lines 509-530): the reference
"now" is the maximum date of the whole loaded frame plus `days` (default
1), and the value is `(today - InvoiceDate.min()).days`. `dfDates` is the
date column of the whole frame. -/
def _calculate_recency_today (InvoiceDate : List Int) (dfDates : List Int)
    (days : Int) : Int :=
  listMax dfDates + days - listMin InvoiceDate

/-- One row of `customer_summary_pr` as produced by `calculate_cltv_pr`:
per-customer recency, T, frequency (distinct transaction count) and
monetary (summed sales amount). Values are numeric (pandas columns), so
all four are rationals. -/
structure RFMRow where
  customer_id : Nat
  recency : ℚ
  T : ℚ
  frequency : ℚ
  monetary : ℚ
deriving DecidableEq

/-- The distinct customer ids of the frame, in order of first appearance
(the groupby keys). -/
def groupCustomers (rows : List SalesRow) : List Nat :=
  (rows.map (·.customer_id)).dedup

/-- The rows of one groupby group. -/
def customerRows (rows : List SalesRow) (c : Nat) : List SalesRow :=
  rows.filter (fun r => r.customer_id = c)

/-- Embeds `CLTVModel.calculate_cltv_pr` (lines 426-477), the aggregation step:
groups the frame by `customer_id` and computes per customer
`recency = _calculate_recency_T(dates)`,
`T = _calculate_recency_today(dates)` (reference now = frame max date +
`days`), `frequency = transaction_id.nunique()`, and
`monetary = sales_amount.sum()`. A missing `sales_amount` cell counts as
0 (in the pipeline the column is always present). -/
def calculate_cltv_pr (df : List SalesRow) (days : Int) : List RFMRow :=
  (groupCustomers df).map fun c =>
    let sub := customerRows df c
    let ds := sub.map (·.date)
    { customer_id := c
      recency := ((_calculate_recency_T ds : Int) : ℚ)
      T := ((_calculate_recency_today ds (df.map (·.date)) days : Int) : ℚ)
      frequency := (((sub.map (·.transaction_id)).dedup.length : Nat) : ℚ)
      monetary := (sub.map (fun r => r.sales_amount.getD 0)).sum }

/-- A pandas Series keyed by customer id. -/
abbrev Series := List (Nat × ℚ)

/-- Index lookup into a Series (pandas alignment by `customer_id` index);
0 for an absent key (never hit in the aligned uses of the pipeline). -/
def lookupS (s : Series) (c : Nat) : ℚ :=
  ((s.find? (fun p => p.1 = c)).map (·.2)).getD 0

/-- Element-wise Series division aligned by index
(`monetary_col / frequency_col`). -/
def seriesDiv (a b : Series) : Series :=
  a.map fun p => (p.1, p.2 / lookupS b p.1)

/-- Series divided by a scalar (`recency_col / 7`). -/
def seriesDivC (a : Series) (k : ℚ) : Series :=
  a.map fun p => (p.1, p.2 / k)

/-- Column assignment `frame[monetary] = s`, aligned by index. -/
def setMonetary (frame : List RFMRow) (s : Series) : List RFMRow :=
  frame.map fun r => { r with monetary := lookupS s r.customer_id }

/-- Column assignment `frame[recency] = s`, aligned by index. -/
def setRecency (frame : List RFMRow) (s : Series) : List RFMRow :=
  frame.map fun r => { r with recency := lookupS s r.customer_id }

/-- Column assignment `frame[T] = s`, aligned by index. -/
def setT (frame : List RFMRow) (s : Series) : List RFMRow :=
  frame.map fun r => { r with T := lookupS s r.customer_id }

/-- The mutable state of the `CLTVModel` object that the probabilistic
pipeline reads and writes: the `customer_summary_pr` frame and the four
per-customer Series attributes `recency`, `T`, `frequency`, `monetary`. -/
structure ModelState where
  customer_summary_pr : List RFMRow
  recency : Series
  T : Series
  frequency : Series
  monetary : Series
deriving DecidableEq

/-- The state right after the aggregation in `calculate_cltv_pr` (lines
461-475): each Series attribute is the corresponding column of the
freshly built frame. -/
def stateAfterSummary (summary : List RFMRow) : ModelState :=
  { customer_summary_pr := summary
    recency := summary.map fun r => (r.customer_id, r.recency)
    T := summary.map fun r => (r.customer_id, r.T)
    frequency := summary.map fun r => (r.customer_id, r.frequency)
    monetary := summary.map fun r => (r.customer_id, r.monetary) }

/-- Embeds `CLTVModel._calculate_monetary_frequency_filter` (lines 532-581) with
default arguments, exactly in source order:
`self.monetary = monetary_col / frequency_col` (full population);
`frame[monetary] = self.monetary`;
`frame = frame[frequency_col > 1]` (mask aligned by index);
`self.frequency = frame[frequency]` (filtered);
`self.recency = recency_col / 7` (full population);
`frame[recency] = self.recency`;
`self.T = T_col / 7` (full population); `frame[T] = self.T`;
`self.customer_summary_pr = frame`. -/
def _calculate_monetary_frequency_filter (st : ModelState) : ModelState :=
  let monetary' := seriesDiv st.monetary st.frequency
  let frame1 := setMonetary st.customer_summary_pr monetary'
  let frame2 := frame1.filter (fun r => 1 < lookupS st.frequency r.customer_id)
  let frequency' := frame2.map fun r => (r.customer_id, r.frequency)
  let recency' := seriesDivC st.recency 7
  let frame3 := setRecency frame2 recency'
  let T' := seriesDivC st.T 7
  let frame4 := setT frame3 T'
  { customer_summary_pr := frame4
    recency := recency'
    T := T'
    frequency := frequency'
    monetary := monetary' }

/-! ## Downstream stages (model fitting, prediction, CLV projection) -/

/-- The customer ids (index) of a frame. -/
def frameCustomers (frame : List RFMRow) : List Nat :=
  frame.map (·.customer_id)

/-- Embeds `CLTVModel.fit_bgf_model` (lines 583-604): the three columns of
`customer_summary_pr` handed to `self.bgf.fit`. -/
def fit_bgf_model (customer_summary_pr : List RFMRow) :
    Series × Series × Series :=
  (customer_summary_pr.map fun r => (r.customer_id, r.frequency),
   customer_summary_pr.map fun r => (r.customer_id, r.recency),
   customer_summary_pr.map fun r => (r.customer_id, r.T))

/-- Embeds `CLTVModel.fit_ggf_model` (lines 691-709): reads the `frequency` and
`monetary` columns of `customer_summary_pr` and hands them to
`self.ggf.fit` unconditionally. The source performs no check of any kind
before the fit — in particular no frequency precondition — and contains
no `raise`; the repository defines no `PreconditionError` class. -/
def fit_ggf_model (customer_summary_pr : List RFMRow) :
    Except PdError (Series × Series) :=
  .ok (customer_summary_pr.map fun r => (r.customer_id, r.frequency),
       customer_summary_pr.map fun r => (r.customer_id, r.monetary))

/-- Ids of the population handed to the BG/NBD fit. -/
def bgf_fit_customers (frame : List RFMRow) : List Nat :=
  (fit_bgf_model frame).1.map (·.1)

/-- Ids of the population handed to the Gamma-Gamma fit. -/
def ggf_fit_customers (frame : List RFMRow) : List Nat :=
  match fit_ggf_model frame with
  | .ok cols => cols.1.map (·.1)
  | .error _ => []

/-- Embeds `CLTVModel.predict_purchases` (lines 639-672) with default arguments:
computes the prediction series from the `frequency`, `recency` and `T`
attribute Series (the fitted BG/NBD closed form is abstracted by `pred`)
and stores it as a new column of `customer_summary_pr`; pandas column
assignment aligns to the index of the frame, so the output holds exactly
the rows of the frame with the prediction attached. -/
def predict_purchases (st : ModelState) (pred : ℚ → ℚ → ℚ → ℚ) :
    List (RFMRow × ℚ) :=
  st.customer_summary_pr.map fun r =>
    (r, pred (lookupS st.frequency r.customer_id)
         (lookupS st.recency r.customer_id)
         (lookupS st.T r.customer_id))

/-- Ids of the prediction output. -/
def predict_customers (st : ModelState) (pred : ℚ → ℚ → ℚ → ℚ) : List Nat :=
  (predict_purchases st pred).map (·.1.customer_id)

/-- The argument bundle `calculate_cltv_prediction` hands to
`self.ggf.customer_lifetime_value`. -/
structure CLVCall where
  time_period : ℚ
  discount_rate : ℚ
  freq : String
  frequency : Series
  recency : Series
  T : Series
  monetary : Series
deriving DecidableEq

/-- Embeds `CLTVModel.calculate_cltv_prediction` (lines 736-770) with every
argument explicit: each `*_col` argument defaults (`None`) to the
corresponding attribute Series of the model state, and the scalar
configuration is passed through to `customer_lifetime_value`. -/
def calculate_cltv_prediction_args (st : ModelState)
    (time_period discount_rate : ℚ) (freq : String)
    (frequency_col recency_col T_col monetary_col : Option Series) :
    CLVCall :=
  { time_period := time_period
    discount_rate := discount_rate
    freq := freq
    frequency := frequency_col.getD st.frequency
    recency := recency_col.getD st.recency
    T := T_col.getD st.T
    monetary := monetary_col.getD st.monetary }

/-- Embeds `calculate_cltv_prediction` called with no overrides: the Python
defaults of the signature are `time_period=12`, `discount_rate=0.01`,
`freq="W"`, and `None` for the four column arguments. -/
def calculate_cltv_prediction (st : ModelState) : CLVCall :=
  calculate_cltv_prediction_args st 12 (1 / 100) "W" none none none none

/-- Index of the returned `cltv_pred`: the `lifetimes`
`customer_lifetime_value` result carries one value per entry of the
`frequency` argument (per the spec, "one CLV scalar per customer"); pandas
alignment drops every other id. Only the index is embedded, the fitted
values being external statistics. -/
def cltv_pred_customers (call : CLVCall) : List Nat :=
  call.frequency.map (·.1)

/-! ## Series lookup lemmas -/

theorem lookupS_nil (c : Nat) : lookupS [] c = 0 := rfl

/-- Lookup into a Series built over a keyed value map. -/
theorem lookupS_map_pair (s : Series) (g : Nat → ℚ → ℚ) (c : Nat)
    (h0 : g c 0 = 0) :
    lookupS (s.map fun p => (p.1, g p.1 p.2)) c = g c (lookupS s c) := by
  induction s with
  | nil => simpa [lookupS] using h0.symm
  | cons p t ih =>
      by_cases hp : p.1 = c
      · subst hp; simp [lookupS, List.find?]
      · simpa [lookupS, List.find?, hp] using ih

theorem lookupS_seriesDiv (a b : Series) (c : Nat) :
    lookupS (seriesDiv a b) c = lookupS a c / lookupS b c := by
  simpa [seriesDiv] using
    lookupS_map_pair a (fun k x => x / lookupS b k) c (zero_div _)

theorem lookupS_seriesDivC (a : Series) (k : ℚ) (c : Nat) :
    lookupS (seriesDivC a k) c = lookupS a c / k := by
  simpa [seriesDivC] using
    lookupS_map_pair a (fun _ x => x / k) c (zero_div _)

/-- Lookup of a frame column Series at the id of one of the rows of the
frame, when the index of the frame has no duplicate ids. -/
theorem lookupS_col (l : List RFMRow) (f : RFMRow → ℚ) {r : RFMRow}
    (hn : (l.map (·.customer_id)).Nodup) (hr : r ∈ l) :
    lookupS (l.map fun a => (a.customer_id, f a)) r.customer_id = f r := by
  induction l with
  | nil => cases hr
  | cons a t ih =>
      simp only [List.map_cons, List.nodup_cons] at hn
      cases hr with
      | head => simp [lookupS, List.find?]
      | tail _ h' =>
          have hne : a.customer_id ≠ r.customer_id := by
            intro he
            exact hn.1 (he ▸ List.mem_map_of_mem (·.customer_id) h')
          simpa [lookupS, List.find?, hne] using ih hn.2 h'

/-- Commutation of `filter` with `map`. -/
theorem filterMapComm {α β : Type} (f : α → β) (p : β → Bool)
    (l : List α) :
    (l.map f).filter p = (l.filter fun a => p (f a)).map f := by
  induction l with
  | nil => rfl
  | cons a t ih => by_cases h : p (f a) <;> simp [h, ih]

/-- The row transformation applied by the filter step to each retained
customer. -/
def filterRow (r : RFMRow) : RFMRow :=
  { customer_id := r.customer_id
    recency := r.recency / 7
    T := r.T / 7
    frequency := r.frequency
    monetary := r.monetary / r.frequency }

/-- Closed form of `_calculate_monetary_frequency_filter` applied to the
state left by `calculate_cltv_pr`, for a frame with duplicate-free ids:
the frame and the `frequency` attribute keep exactly the customers with
frequency strictly above 1 (with monetary averaged and recency and T in
weeks), while the `recency`, `T` and `monetary` attributes keep the full
population. -/
theorem filter_state_eq (summary : List RFMRow)
    (hn : (summary.map (·.customer_id)).Nodup) :
    _calculate_monetary_frequency_filter (stateAfterSummary summary) =
      { customer_summary_pr :=
          (summary.filter fun r => 1 < r.frequency).map filterRow
        recency := summary.map fun r => (r.customer_id, r.recency / 7)
        T := summary.map fun r => (r.customer_id, r.T / 7)
        frequency := (summary.filter fun r => 1 < r.frequency).map
          fun r => (r.customer_id, r.frequency)
        monetary := summary.map
          fun r => (r.customer_id, r.monetary / r.frequency) } := by
  have hmon : seriesDiv (summary.map fun r => (r.customer_id, r.monetary))
      (summary.map fun r => (r.customer_id, r.frequency)) =
      summary.map fun r => (r.customer_id, r.monetary / r.frequency) := by
    simp only [seriesDiv, List.map_map]
    refine List.map_congr_left fun r hr => ?_
    simp [Function.comp, lookupS_col summary (fun a => a.frequency) hn hr]
  have hrec : seriesDivC (summary.map fun r => (r.customer_id, r.recency)) 7
      = summary.map fun r => (r.customer_id, r.recency / 7) := by
    simp [seriesDivC, List.map_map, Function.comp]
  have hT : seriesDivC (summary.map fun r => (r.customer_id, r.T)) 7
      = summary.map fun r => (r.customer_id, r.T / 7) := by
    simp [seriesDivC, List.map_map, Function.comp]
  have hframe1 : setMonetary summary
      (summary.map fun r => (r.customer_id, r.monetary / r.frequency)) =
      summary.map fun r => { r with monetary := r.monetary / r.frequency } := by
    simp only [setMonetary]
    refine List.map_congr_left fun r hr => ?_
    rw [lookupS_col summary (fun a => a.monetary / a.frequency) hn hr]
  have hmask : (summary.map
      fun r => { r with monetary := r.monetary / r.frequency }).filter
        (fun r => decide (1 <
          lookupS (summary.map fun a => (a.customer_id, a.frequency))
            r.customer_id)) =
      (summary.filter fun r => 1 < r.frequency).map
        fun r => { r with monetary := r.monetary / r.frequency } := by
    rw [filterMapComm]
    congr 1
    refine List.filter_congr fun r hr => ?_
    have : lookupS (summary.map fun a => (a.customer_id, a.frequency))
        r.customer_id = r.frequency :=
      lookupS_col summary (fun a => a.frequency) hn hr
    simp [this]
  simp only [_calculate_monetary_frequency_filter, stateAfterSummary]
  rw [hmon, hrec, hT, hframe1, hmask]
  simp only [ModelState.mk.injEq]
  refine ⟨?_, trivial, trivial, ?_, trivial⟩
  · simp only [setRecency, setT, List.map_map]
    refine List.map_congr_left fun r hr => ?_
    have hrs : r ∈ summary := List.mem_of_mem_filter hr
    simp [Function.comp, filterRow,
      lookupS_col summary (fun a => a.recency / 7) hn hrs,
      lookupS_col summary (fun a => a.T / 7) hn hrs]
  · simp [List.map_map, Function.comp]

/-- The ids of the summary built by `calculate_cltv_pr` are the distinct
customer ids of the input frame, hence duplicate-free. -/
theorem calculate_cltv_pr_ids (df : List SalesRow) (d : Int) :
    (calculate_cltv_pr df d).map (·.customer_id) = groupCustomers df := by
  simp [calculate_cltv_pr, List.map_map, Function.comp_def]

theorem calculate_cltv_pr_nodup (df : List SalesRow) (d : Int) :
    ((calculate_cltv_pr df d).map (·.customer_id)).Nodup := by
  rw [calculate_cltv_pr_ids]
  exact List.nodup_dedup _

/-- C2: in the RFM summary produced by `calculate_cltv_pr` with a
positive reference-day offset, the per-customer recency (days between
first and last purchase) is at most its T (days between first purchase
and the maximum date of the frame plus the offset) — and the inequality
survives the division of both by 7 performed by the filter step. -/
theorem C2_recency_le_T (df : List SalesRow) (d : Int) (hd : 0 < d) :
    (∀ r ∈ calculate_cltv_pr df d, r.recency ≤ r.T) ∧
    (∀ r ∈ (_calculate_monetary_frequency_filter
        (stateAfterSummary (calculate_cltv_pr df d))).customer_summary_pr,
      r.recency ≤ r.T) := by
  have h1 : ∀ r ∈ calculate_cltv_pr df d, r.recency ≤ r.T := by
    intro r hr
    simp only [calculate_cltv_pr, List.mem_map] at hr
    obtain ⟨c, hc, rfl⟩ := hr
    have hc' : c ∈ df.map (·.customer_id) := List.mem_dedup.mp hc
    obtain ⟨row, hrow, hcid⟩ := List.mem_map.mp hc'
    have hrow_sub : row ∈ customerRows df c := by
      simp [customerRows, hrow, hcid]
    have hds : row.date ∈ (customerRows df c).map (·.date) :=
      List.mem_map_of_mem _ hrow_sub
    have hmax_mem : listMax ((customerRows df c).map (·.date))
        ∈ (customerRows df c).map (·.date) :=
      listMax_mem (List.ne_nil_of_mem hds)
    have hmax_df : listMax ((customerRows df c).map (·.date))
        ∈ df.map (·.date) := by
      obtain ⟨r', hr', he⟩ := List.mem_map.mp hmax_mem
      exact he ▸ List.mem_map_of_mem _ (List.mem_of_mem_filter hr')
    have h2 : listMax ((customerRows df c).map (·.date))
        ≤ listMax (df.map (·.date)) := le_listMax hmax_df
    have h3 : _calculate_recency_T ((customerRows df c).map (·.date))
        ≤ _calculate_recency_today ((customerRows df c).map (·.date))
            (df.map (·.date)) d := by
      unfold _calculate_recency_T _calculate_recency_today
      omega
    dsimp only
    exact_mod_cast h3
  refine ⟨h1, ?_⟩
  intro r' hr'
  rw [filter_state_eq _ (calculate_cltv_pr_nodup df d)] at hr'
  simp only [List.mem_map] at hr'
  obtain ⟨r, hr, rfl⟩ := hr'
  have hle := h1 r (List.mem_of_mem_filter hr)
  simpa [filterRow] using
    (div_le_div_iff_of_pos_right (by norm_num : (0:ℚ) < 7)).mpr hle

/-- A concrete frame: customer 1 has one transaction on day 0, customer 2
has transactions on days 0 and 3. -/
def dfW : List SalesRow :=
  [⟨1, 10, 0, 1, 5, some 5⟩, ⟨2, 20, 0, 1, 4, some 4⟩,
   ⟨2, 21, 3, 1, 4, some 4⟩]

/-- Witness for C2 at the concrete frame `dfW` with day offset 1. -/
theorem C2_recency_le_T_witness :
    ((calculate_cltv_pr dfW 1).all fun r => decide (r.recency ≤ r.T))
        = true ∧
    (((_calculate_monetary_frequency_filter
        (stateAfterSummary (calculate_cltv_pr dfW 1))).customer_summary_pr).all
      fun r => decide (r.recency ≤ r.T)) = true := by
  have h := C2_recency_le_T dfW 1 (by norm_num)
  constructor
  · rw [List.all_eq_true]
    intro r hr
    exact decide_eq_true (h.1 r hr)
  · rw [List.all_eq_true]
    intro r hr
    exact decide_eq_true (h.2 r hr)

/-- With a duplicate-free index, a customer whose summary row has
frequency at most 1 does not appear among the ids of the
frequency-filtered rows. -/
theorem not_mem_filtered_ids (summary : List RFMRow)
    (hn : (summary.map (·.customer_id)).Nodup) {r : RFMRow}
    (hr : r ∈ summary) (hle : r.frequency ≤ 1) :
    r.customer_id ∉
      ((summary.filter fun a => 1 < a.frequency).map (·.customer_id)) := by
  intro hmem
  obtain ⟨r0, hr0, he⟩ := List.mem_map.mp hmem
  have hr0s : r0 ∈ summary := List.mem_of_mem_filter hr0
  have hgt : 1 < r0.frequency := by
    have := List.of_mem_filter hr0
    simpa using this
  have : r0 = r := List.inj_on_of_nodup_map hn hr0s hr he
  rw [this] at hgt
  exact absurd hle (not_le.mpr hgt)

/-- C1: after the RFM frequency filter, every retained row of
`customer_summary_pr` has frequency strictly above 1; and a customer of
the `calculate_cltv_pr` summary with frequency at most 1 is dropped
before model fitting and appears in none of the downstream outputs: not
in the filtered frame, not in the population handed to the BG/NBD fit
nor to the Gamma-Gamma fit, not in the purchase-prediction output (for
any fitted prediction function), and not in the index of the CLV
prediction produced with default arguments. -/
theorem C1_frequency_filter_invariant (df : List SalesRow) (d : Int) :
    let st' := _calculate_monetary_frequency_filter
      (stateAfterSummary (calculate_cltv_pr df d))
    (∀ r ∈ st'.customer_summary_pr, 1 < r.frequency) ∧
    ∀ r ∈ calculate_cltv_pr df d, r.frequency ≤ 1 →
      r.customer_id ∉ frameCustomers st'.customer_summary_pr ∧
      r.customer_id ∉ bgf_fit_customers st'.customer_summary_pr ∧
      r.customer_id ∉ ggf_fit_customers st'.customer_summary_pr ∧
      (∀ pred, r.customer_id ∉ predict_customers st' pred) ∧
      r.customer_id ∉ cltv_pred_customers (calculate_cltv_prediction st') := by
  intro st'
  have hn := calculate_cltv_pr_nodup df d
  have hst : st' = _ := filter_state_eq (calculate_cltv_pr df d) hn
  constructor
  · intro r hr
    rw [hst] at hr
    obtain ⟨r0, hr0, he⟩ := List.mem_map.mp hr
    have hgt : 1 < r0.frequency := by
      have := List.of_mem_filter hr0
      simpa using this
    rw [← he]
    simpa [filterRow] using hgt
  · intro r hr hle
    have hkey := not_mem_filtered_ids (calculate_cltv_pr df d) hn hr hle
    have hframe : frameCustomers st'.customer_summary_pr =
        ((calculate_cltv_pr df d).filter fun a => 1 < a.frequency).map
          (·.customer_id) := by
      rw [hst]
      simp [frameCustomers, filterRow, List.map_map, Function.comp_def]
    have hfreq : st'.frequency.map (·.1) =
        ((calculate_cltv_pr df d).filter fun a => 1 < a.frequency).map
          (·.customer_id) := by
      rw [hst]
      simp [List.map_map, Function.comp_def]
    refine ⟨?_, ?_, ?_, ?_, ?_⟩
    · rw [hframe]; exact hkey
    · have : bgf_fit_customers st'.customer_summary_pr =
          frameCustomers st'.customer_summary_pr := by
        simp [bgf_fit_customers, fit_bgf_model, frameCustomers,
          List.map_map, Function.comp_def]
      rw [this, hframe]; exact hkey
    · have : ggf_fit_customers st'.customer_summary_pr =
          frameCustomers st'.customer_summary_pr := by
        simp [ggf_fit_customers, fit_ggf_model, frameCustomers,
          List.map_map, Function.comp_def]
      rw [this, hframe]; exact hkey
    · intro pred
      have : predict_customers st' pred =
          frameCustomers st'.customer_summary_pr := by
        simp [predict_customers, predict_purchases, frameCustomers,
          List.map_map, Function.comp_def]
      rw [this, hframe]; exact hkey
    · have : cltv_pred_customers (calculate_cltv_prediction st') =
          st'.frequency.map (·.1) := by
        simp [cltv_pred_customers, calculate_cltv_prediction,
          calculate_cltv_prediction_args]
      rw [this, hfreq]; exact hkey

/-- Witness for C1 at the concrete frame `dfW`: customer 1 has a single
transaction (frequency 1) and is absent from every downstream output. -/
theorem C1_frequency_filter_invariant_witness :
    (((_calculate_monetary_frequency_filter
        (stateAfterSummary (calculate_cltv_pr dfW 1))).customer_summary_pr).all
      fun r => decide (1 < r.frequency)) = true ∧
    (1 : Nat) ∉ frameCustomers (_calculate_monetary_frequency_filter
      (stateAfterSummary (calculate_cltv_pr dfW 1))).customer_summary_pr ∧
    (1 : Nat) ∉ bgf_fit_customers (_calculate_monetary_frequency_filter
      (stateAfterSummary (calculate_cltv_pr dfW 1))).customer_summary_pr ∧
    (1 : Nat) ∉ ggf_fit_customers (_calculate_monetary_frequency_filter
      (stateAfterSummary (calculate_cltv_pr dfW 1))).customer_summary_pr ∧
    (1 : Nat) ∉ predict_customers (_calculate_monetary_frequency_filter
      (stateAfterSummary (calculate_cltv_pr dfW 1))) (fun _ _ _ => 0) ∧
    (1 : Nat) ∉ cltv_pred_customers (calculate_cltv_prediction
      (_calculate_monetary_frequency_filter
        (stateAfterSummary (calculate_cltv_pr dfW 1)))) := by
  have h := C1_frequency_filter_invariant dfW 1
  have hsum : calculate_cltv_pr dfW 1 = [⟨1, 0, 4, 1, 5⟩, ⟨2, 3, 4, 2, 8⟩] := by
    norm_num [calculate_cltv_pr, dfW, groupCustomers, customerRows,
      _calculate_recency_T, _calculate_recency_today, listMax, listMin]
  have hrow : (⟨1, 0, 4, 1, 5⟩ : RFMRow) ∈ calculate_cltv_pr dfW 1 := by
    rw [hsum]
    exact List.mem_cons_self _ _
  have h2 := h.2 ⟨1, 0, 4, 1, 5⟩ hrow (by norm_num)
  refine ⟨?_, h2.1, h2.2.1, h2.2.2.1, h2.2.2.2.1 _, h2.2.2.2.2⟩
  rw [List.all_eq_true]
  intro r hr
  exact decide_eq_true (h.1 r hr)

/-- C9: after `_calculate_monetary_frequency_filter` runs on the state
left by the aggregation (frame with duplicate-free index), the
`frequency` attribute keeps only the customers with frequency strictly
above 1, while the `recency`, `T` and `monetary` attributes — the ones
`calculate_cltv_prediction` uses by default — still index every customer
of the unfiltered summary, including each customer with frequency at
most 1. -/
theorem C9_filter_leaves_attributes_unfiltered (summary : List RFMRow)
    (hn : (summary.map (·.customer_id)).Nodup) :
    let st' := _calculate_monetary_frequency_filter (stateAfterSummary summary)
    (∀ p ∈ st'.frequency, 1 < p.2) ∧
    st'.frequency.map (·.1) =
      (summary.filter fun r => 1 < r.frequency).map (·.customer_id) ∧
    st'.recency.map (·.1) = summary.map (·.customer_id) ∧
    st'.T.map (·.1) = summary.map (·.customer_id) ∧
    st'.monetary.map (·.1) = summary.map (·.customer_id) ∧
    (calculate_cltv_prediction st').recency = st'.recency ∧
    (calculate_cltv_prediction st').T = st'.T ∧
    (calculate_cltv_prediction st').monetary = st'.monetary ∧
    (calculate_cltv_prediction st').frequency = st'.frequency ∧
    ∀ r ∈ summary, r.frequency ≤ 1 →
      r.customer_id ∈ st'.recency.map (·.1) ∧
      r.customer_id ∈ st'.T.map (·.1) ∧
      r.customer_id ∈ st'.monetary.map (·.1) ∧
      r.customer_id ∉ st'.frequency.map (·.1) := by
  intro st'
  have hst : st' = _ := filter_state_eq summary hn
  have hids : st'.frequency.map (·.1) =
      (summary.filter fun r => 1 < r.frequency).map (·.customer_id) := by
    rw [hst]
    simp [List.map_map, Function.comp_def]
  have hrec : st'.recency.map (·.1) = summary.map (·.customer_id) := by
    rw [hst]
    simp [List.map_map, Function.comp_def]
  have hT : st'.T.map (·.1) = summary.map (·.customer_id) := by
    rw [hst]
    simp [List.map_map, Function.comp_def]
  have hmon : st'.monetary.map (·.1) = summary.map (·.customer_id) := by
    rw [hst]
    simp [List.map_map, Function.comp_def]
  refine ⟨?_, hids, hrec, hT, hmon, rfl, rfl, rfl, rfl, ?_⟩
  · intro p hp
    rw [hst] at hp
    obtain ⟨r0, hr0, he⟩ := List.mem_map.mp hp
    have hgt : 1 < r0.frequency := by
      have := List.of_mem_filter hr0
      simpa using this
    rw [← he]
    simpa using hgt
  · intro r hr hle
    refine ⟨?_, ?_, ?_, ?_⟩
    · rw [hrec]; exact List.mem_map_of_mem _ hr
    · rw [hT]; exact List.mem_map_of_mem _ hr
    · rw [hmon]; exact List.mem_map_of_mem _ hr
    · rw [hids]; exact not_mem_filtered_ids summary hn hr hle

/-- A concrete unfiltered summary: customer 1 has frequency 1, customer
2 has frequency 2. -/
def summaryW : List RFMRow := [⟨1, 0, 4, 1, 5⟩, ⟨2, 3, 4, 2, 8⟩]

/-- Witness for C9 at the concrete summary `summaryW`: customer 1
(frequency 1) leaves the `frequency` attribute but stays in `recency`,
`T` and `monetary`. -/
theorem C9_filter_leaves_attributes_unfiltered_witness :
    (((_calculate_monetary_frequency_filter
        (stateAfterSummary summaryW)).frequency).all
      fun p => decide (1 < p.2)) = true ∧
    (1 : Nat) ∈ ((_calculate_monetary_frequency_filter
        (stateAfterSummary summaryW)).recency).map (·.1) ∧
    (1 : Nat) ∈ ((_calculate_monetary_frequency_filter
        (stateAfterSummary summaryW)).T).map (·.1) ∧
    (1 : Nat) ∈ ((_calculate_monetary_frequency_filter
        (stateAfterSummary summaryW)).monetary).map (·.1) ∧
    (1 : Nat) ∉ ((_calculate_monetary_frequency_filter
        (stateAfterSummary summaryW)).frequency).map (·.1) := by
  have h := C9_filter_leaves_attributes_unfiltered summaryW (by decide)
  have h10 := h.2.2.2.2.2.2.2.2.2 ⟨1, 0, 4, 1, 5⟩ (List.mem_cons_self _ _)
    (by norm_num)
  refine ⟨?_, h10.1, h10.2.1, h10.2.2.1, h10.2.2.2⟩
  rw [List.all_eq_true]
  intro p hp
  exact decide_eq_true (h.1 p hp)

/-- C8: the CLV projector takes horizon, per-period discount rate and
period unit as per-call configuration, and with no overrides the Python
defaults of the signature are used: 12 periods, a 1% (= 1/100) per-period
discount, weekly ("W") unit — the four data columns defaulting to the
attribute Series of the model state. -/
theorem C8_projection_defaults (st : ModelState) (tp dr : ℚ) (fr : String)
    (fc rc tc mc : Option Series) :
    ((calculate_cltv_prediction_args st tp dr fr fc rc tc mc).time_period
        = tp ∧
     (calculate_cltv_prediction_args st tp dr fr fc rc tc mc).discount_rate
        = dr ∧
     (calculate_cltv_prediction_args st tp dr fr fc rc tc mc).freq = fr) ∧
    calculate_cltv_prediction st =
      calculate_cltv_prediction_args st 12 (1 / 100) "W"
        none none none none ∧
    (calculate_cltv_prediction st).time_period = 12 ∧
    (calculate_cltv_prediction st).discount_rate = 1 / 100 ∧
    (calculate_cltv_prediction st).freq = "W" ∧
    (calculate_cltv_prediction st).frequency = st.frequency ∧
    (calculate_cltv_prediction st).recency = st.recency ∧
    (calculate_cltv_prediction st).T = st.T ∧
    (calculate_cltv_prediction st).monetary = st.monetary :=
  ⟨⟨rfl, rfl, rfl⟩, rfl, rfl, rfl, rfl, rfl, rfl, rfl, rfl⟩

/-- A one-customer population whose only frequency is 1 (≤ 1). -/
def popC4 : List RFMRow := [⟨5, 0, 10, 1, 20⟩]

/-- C4 counterexample: calling the monetary-model fit on a population
consisting only of customers with frequency ≤ 1 does not raise a
`PreconditionError` (the repository defines no such class): it succeeds,
handing the frequency and monetary columns to the Gamma-Gamma fitter
unconditionally. -/
theorem C4_counterexample :
    (popC4.all fun r => decide (r.frequency ≤ 1)) = true ∧
    fit_ggf_model popC4 = .ok ([(5, 1)], [(5, 20)]) := by
  refine ⟨?_, rfl⟩
  rw [List.all_eq_true]
  intro r hr
  simp only [popC4, List.mem_singleton] at hr
  subst hr
  exact decide_eq_true (by norm_num)

/-- C4 amended: `fit_ggf_model` performs no frequency precondition check
and raises nothing: on any population — in particular one where every
customer has frequency ≤ 1 — it unconditionally passes the frequency and
monetary columns to the Gamma-Gamma fitter. -/
theorem C4_fit_ggf_no_precondition (pop : List RFMRow)
    (_hle : ∀ r ∈ pop, r.frequency ≤ 1) :
    fit_ggf_model pop =
      .ok (pop.map fun r => (r.customer_id, r.frequency),
           pop.map fun r => (r.customer_id, r.monetary)) := rfl

/-- Witness for the amended C4 at the concrete population `popC4`. -/
theorem C4_fit_ggf_no_precondition_witness :
    fit_ggf_model popC4 =
      .ok (popC4.map fun r => (r.customer_id, r.frequency),
           popC4.map fun r => (r.customer_id, r.monetary)) :=
  C4_fit_ggf_no_precondition popC4 (by
    intro r hr
    simp only [popC4, List.mem_singleton] at hr
    subst hr
    norm_num)

/-! ## Classical CLV path (repeat rate, churn rate, CLTV formula) -/

/-- One row of `customer_summary` after the column-adding steps
(`calculate_customer_summary` through `calculate_customer_value` and
`calculate_profit_margin`, lines 166-386): aggregate counters per
customer. -/
structure CSRow where
  customer_id : Nat
  total_transactions : ℚ
  total_sales_amount : ℚ
  customer_value : ℚ
  profit_margin : ℚ
deriving DecidableEq

/-- Embeds `CLTVModel.calculate_repeat_rate` (lines 259-298): raises `ValueError`
on an empty summary; otherwise selects the customers with more than one
transaction; if there are none it records a warning (the returned flag)
and yields 0, else it yields the ratio of repeat customers to all
customers without a warning. -/
def calculate_repeat_rate (customer_summary : List CSRow) :
    Except PdError (Bool × ℚ) :=
  if customer_summary.length = 0 then
    .error (.valueError "The DataFrame is empty.")
  else
    let repeat_rate_df := customer_summary.filter
      fun r => 1 < r.total_transactions
    if repeat_rate_df.length = 0 then
      .ok (true, 0)
    else
      .ok (false,
        (repeat_rate_df.length : ℚ) / (customer_summary.length : ℚ))

/-- Embeds `CLTVModel.calculate_churn_rate` (lines 300-315): `1 - repeat_rate`,
with no other computation or check. -/
def calculate_churn_rate (repeat_rate : ℚ) : ℚ := 1 - repeat_rate

/-- A pandas float cell: finite, an infinity, or NaN. pandas float
division never raises; a positive value divided by zero is `inf`. -/
inductive PdVal where
  | fin : ℚ → PdVal
  | inf : PdVal
  | ninf : PdVal
  | nan : PdVal
deriving DecidableEq

/-- Float division as pandas performs it on a Series cell. -/
def pdDiv (a b : ℚ) : PdVal :=
  if b = 0 then
    if 0 < a then .inf else if a < 0 then .ninf else .nan
  else .fin (a / b)

/-- Multiplication of a possibly non-finite cell by a finite factor. -/
def pdScale (v : PdVal) (m : ℚ) : PdVal :=
  match v with
  | .fin q => .fin (q * m)
  | .inf => if 0 < m then .inf else if m < 0 then .ninf else .nan
  | .ninf => if 0 < m then .ninf else if m < 0 then .inf else .nan
  | .nan => .nan

/-- Embeds `CLTVModel.calculate_cltv` (lines 388-424) with default arguments:
after the column-presence checks (satisfied by construction in this typed
embedding) it assigns
`customer_summary[clv] = (customer_value / churn_rate) * profit_margin`
row-wise. The source contains no guard on `churn_rate`: the division is
performed whatever its value, zero included. -/
def calculate_cltv (customer_summary : List CSRow) (churn_rate : ℚ) :
    Except PdError (List (CSRow × PdVal)) :=
  .ok (customer_summary.map fun r =>
    (r, pdScale (pdDiv r.customer_value churn_rate) r.profit_margin))

/-- C7: on a nonempty customer summary in which no customer has more than
one transaction, `calculate_repeat_rate` does not raise: it returns 0
with the warning flag set, and `calculate_churn_rate` then returns
`1 - 0 = 1`. -/
theorem C7_repeat_rate_soft_failure (customer_summary : List CSRow)
    (hne : customer_summary ≠ [])
    (hall : ∀ r ∈ customer_summary, r.total_transactions ≤ 1) :
    calculate_repeat_rate customer_summary = .ok (true, 0) ∧
    calculate_churn_rate 0 = 1 := by
  have hfil : customer_summary.filter
      (fun r => 1 < r.total_transactions) = [] := by
    rw [List.filter_eq_nil_iff]
    intro a ha
    simpa using not_lt.mpr (hall a ha)
  constructor
  · simp [calculate_repeat_rate, hfil, List.length_eq_zero, hne]
  · norm_num [calculate_churn_rate]

/-- A concrete summary with one single-transaction customer. -/
def csNoRepeat : List CSRow := [⟨1, 1, 5, 5, 1⟩]

/-- Witness for C7 at `csNoRepeat`. -/
theorem C7_repeat_rate_soft_failure_witness :
    calculate_repeat_rate csNoRepeat = .ok (true, 0) ∧
    calculate_churn_rate 0 = 1 :=
  C7_repeat_rate_soft_failure csNoRepeat (by simp [csNoRepeat]) (by
    intro r hr
    simp only [csNoRepeat, List.mem_singleton] at hr
    subst hr
    norm_num)

/-- C10: on a nonempty summary in which every customer has more than one
transaction, `calculate_repeat_rate` returns 1 (no warning),
`calculate_churn_rate` returns `1 - 1 = 0`, and `calculate_cltv` invoked
with that zero churn rate raises nothing — its division is unguarded —
computing `(customer_value / 0) * profit_margin` for every row, which is
the infinity cell whenever customer value and profit margin are
positive. -/
theorem C10_churn_zero_division_unguarded (customer_summary : List CSRow)
    (hne : customer_summary ≠ [])
    (hall : ∀ r ∈ customer_summary, 1 < r.total_transactions) :
    calculate_repeat_rate customer_summary = .ok (false, 1) ∧
    calculate_churn_rate 1 = 0 ∧
    calculate_cltv customer_summary 0 =
      .ok (customer_summary.map fun r =>
        (r, pdScale (pdDiv r.customer_value 0) r.profit_margin)) ∧
    ∀ r ∈ customer_summary, 0 < r.customer_value → 0 < r.profit_margin →
      pdScale (pdDiv r.customer_value 0) r.profit_margin = .inf := by
  have hfil : customer_summary.filter
      (fun r => 1 < r.total_transactions) = customer_summary := by
    rw [List.filter_eq_self]
    intro a ha
    exact decide_eq_true (hall a ha)
  have hlen : (customer_summary.length : ℚ) ≠ 0 := by
    exact_mod_cast fun h => hne (List.length_eq_zero.mp h)
  refine ⟨?_, by norm_num [calculate_churn_rate], rfl, ?_⟩
  · have hne' : customer_summary.length ≠ 0 :=
      fun h => hne (List.length_eq_zero.mp h)
    simp [calculate_repeat_rate, hfil, hne', div_self hlen]
  · intro r _ hv hm
    simp [pdDiv, pdScale, hv, hm, not_lt.mpr hv.le]

/-- A concrete summary in which the only customer repeats. -/
def csAllRepeat : List CSRow := [⟨1, 2, 10, 3, 1⟩]

/-- Witness for C10 at `csAllRepeat`: the pipeline reaches an unguarded
division by a zero churn rate and produces the infinity cell. -/
theorem C10_churn_zero_division_unguarded_witness :
    calculate_repeat_rate csAllRepeat = .ok (false, 1) ∧
    calculate_churn_rate 1 = 0 ∧
    calculate_cltv csAllRepeat 0 =
      .ok (csAllRepeat.map fun r =>
        (r, pdScale (pdDiv r.customer_value 0) r.profit_margin)) ∧
    pdScale (pdDiv (3 : ℚ) 0) 1 = .inf := by
  have h := C10_churn_zero_division_unguarded csAllRepeat
    (by simp [csAllRepeat]) (by
      intro r hr
      simp only [csAllRepeat, List.mem_singleton] at hr
      subst hr
      norm_num)
  refine ⟨h.1, h.2.1, h.2.2.1, ?_⟩
  have := h.2.2.2 ⟨1, 2, 10, 3, 1⟩ (List.mem_cons_self _ _)
    (by norm_num) (by norm_num)
  exact this

/-! ## Segmenter (`create_segments` over `pd.qcut`) -/

/-- One row of the merged frame as the segmenter reads it: the customer
and its `clv` column. -/
structure SegRow where
  customer_id : Nat
  clv : ℚ
deriving DecidableEq

/-- Ascending insertion used to sort the values before taking
quantiles. -/
def insertAsc (x : ℚ) : List ℚ → List ℚ
  | [] => [x]
  | y :: ys => if x ≤ y then x :: y :: ys else y :: insertAsc x ys

/-- The values in ascending order (numpy sorts before interpolating). -/
def sortAsc (l : List ℚ) : List ℚ := l.foldr insertAsc []

/-- Linear-interpolation quantile of an ascending list, as numpy
computes it: at position `h = (n-1)p`, interpolating between the
neighbouring elements. -/
def quantileSorted (xs : List ℚ) (p : ℚ) : ℚ :=
  let n := xs.length
  let h : ℚ := ((n : ℚ) - 1) * p
  let i : Nat := (⌊h⌋).toNat
  let lo := xs.getD i 0
  let hi := xs.getD (i + 1) lo
  lo + (h - (i : ℚ)) * (hi - lo)

/-- The `q + 1` quantile bin edges `pd.qcut` computes: the quantiles of
the values at `0, 1/q, …, 1`. -/
def binEdges (vs : List ℚ) (q : Nat) : List ℚ :=
  (List.range (q + 1)).map fun i : Nat =>
    quantileSorted (sortAsc vs) ((i : ℚ) / (q : ℚ))

/-- Embeds `pd.qcut(values, q, labels)` with its defaults
(`duplicates="raise"`, `ordered=True`), following the checks of the
pandas `_bins_to_cuts` in source order: it raises `ValueError` when the
computed bin edges are not all distinct — except when there are exactly
2 edges, which pandas exempts; then `ValueError` when the given labels
are not unique; then `ValueError` when the label count differs from the
bin count (edge count minus one); otherwise it labels each value by the
right-closed bin it falls in (the count of interior edges strictly below
it, the minimum falling in the first bin). -/
def qcut (vs : List ℚ) (q : Nat) (labels : List String) :
    Except PdError (List String) :=
  if ¬ (binEdges vs q).Nodup ∧ (binEdges vs q).length ≠ 2 then
    .error (.valueError "Bin edges must be unique")
  else if ¬ labels.Nodup then
    .error (.valueError "labels must be unique if ordered=True")
  else if labels.length ≠ (binEdges vs q).length - 1 then
    .error (.valueError
      "Bin labels must be one fewer than the number of bin edges")
  else
    .ok (vs.map fun x =>
      labels.getD (((binEdges vs q).drop 1).countP fun e => decide (e < x)) "")

/-- There are always `q + 1` computed bin edges. -/
theorem binEdges_length (vs : List ℚ) (q : Nat) :
    (binEdges vs q).length = q + 1 := by
  unfold binEdges
  rw [List.length_map, List.length_range]

/-- Descending insertion by the `clv` column. -/
def insertDesc (x : SegRow × String) :
    List (SegRow × String) → List (SegRow × String)
  | [] => [x]
  | y :: ys => if y.1.clv ≤ x.1.clv then x :: y :: ys else y :: insertDesc x ys

/-- Embeds `sort_values(by=clv_col, ascending=False)`. -/
def sortDescByClv (l : List (SegRow × String)) : List (SegRow × String) :=
  l.foldr insertDesc []

/-- Embeds `CLTVModel.create_segments` (lines 799-820) with default column
names: assigns `segment = pd.qcut(frame[clv], q=num_segments, labels)`
and returns the frame sorted descending by `clv`. -/
def create_segments (customer_summary_pr : List SegRow) (num_segments : Nat)
    (labels : List String) : Except PdError (List (SegRow × String)) :=
  match qcut (customer_summary_pr.map (·.clv)) num_segments labels with
  | .error e => .error e
  | .ok ls => .ok (sortDescByClv (customer_summary_pr.zip ls))

theorem insertDesc_perm (x : SegRow × String) (l : List (SegRow × String)) :
    (insertDesc x l).Perm (x :: l) := by
  induction l with
  | nil => exact List.Perm.refl _
  | cons y ys ih =>
      by_cases h : y.1.clv ≤ x.1.clv
      · simp [insertDesc, h]
      · simp only [insertDesc, if_neg h]
        exact ((ih.cons y).trans (List.Perm.swap x y ys)).symm.symm

theorem sortDescByClv_perm (l : List (SegRow × String)) :
    (sortDescByClv l).Perm l := by
  induction l with
  | nil => exact List.Perm.refl _
  | cons x xs ih =>
      exact (insertDesc_perm x (sortDescByClv xs)).trans (ih.cons x)

theorem insertDesc_pairwise (x : SegRow × String)
    {l : List (SegRow × String)}
    (h : l.Pairwise fun a b => b.1.clv ≤ a.1.clv) :
    (insertDesc x l).Pairwise fun a b => b.1.clv ≤ a.1.clv := by
  induction l with
  | nil => simp [insertDesc]
  | cons y ys ih =>
      rw [List.pairwise_cons] at h
      by_cases hxy : y.1.clv ≤ x.1.clv
      · rw [insertDesc, if_pos hxy, List.pairwise_cons]
        refine ⟨?_, List.pairwise_cons.mpr h⟩
        intro b hb
        cases hb with
        | head => exact hxy
        | tail _ hb' => exact le_trans (h.1 b hb') hxy
      · rw [insertDesc, if_neg hxy, List.pairwise_cons]
        refine ⟨?_, ih h.2⟩
        intro b hb
        have hb' := (insertDesc_perm x ys).mem_iff.mp hb
        cases hb' with
        | head => exact le_of_not_le hxy
        | tail _ hb'' => exact h.1 b hb''

theorem sortDescByClv_pairwise (l : List (SegRow × String)) :
    (sortDescByClv l).Pairwise fun a b => b.1.clv ≤ a.1.clv := by
  induction l with
  | nil => simp [sortDescByClv]
  | cons x xs ih => exact insertDesc_pairwise x ih

/-- C5 amended: `create_segments` fails with the pandas `ValueError`
(the repository defining no `InsufficientDataError`) when the quantile
bin edges computed from the CLV column are not all distinct — except for
a single requested segment, which pandas exempts from that raise — while
having fewer distinct CLV values than requested segments does not by
itself cause an error; with a duplicate-free label list, when the label
count differs from the segment count the pandas label-length `ValueError`
is raised, and when it matches (as in the default call) every customer
is labeled with a quantile bucket and the rows are returned ordered
descending by CLV. -/
theorem C5_create_segments_quantile (rows : List SegRow) (q : Nat)
    (labels : List String) :
    (¬ (binEdges (rows.map (·.clv)) q).Nodup → q ≠ 1 →
      create_segments rows q labels =
        .error (.valueError "Bin edges must be unique")) ∧
    (((binEdges (rows.map (·.clv)) q).Nodup ∨ q = 1) → labels.Nodup →
      labels.length ≠ q →
      create_segments rows q labels =
        .error (.valueError
          "Bin labels must be one fewer than the number of bin edges")) ∧
    (((binEdges (rows.map (·.clv)) q).Nodup ∨ q = 1) → labels.Nodup →
      labels.length = q →
      ∃ out, create_segments rows q labels = .ok out ∧
        (out.map (·.1)).Perm rows ∧
        out.Pairwise fun a b => b.1.clv ≤ a.1.clv) := by
  have hlen := binEdges_length (rows.map (·.clv)) q
  refine ⟨?_, ?_, ?_⟩
  · intro h hq
    have hc : ¬ (binEdges (rows.map (·.clv)) q).Nodup ∧
        (binEdges (rows.map (·.clv)) q).length ≠ 2 := ⟨h, by omega⟩
    simp [create_segments, qcut, hc]
  · intro hg hlab hne
    have hc : ¬ (¬ (binEdges (rows.map (·.clv)) q).Nodup ∧
        (binEdges (rows.map (·.clv)) q).length ≠ 2) := by
      rcases hg with h | h
      · exact fun hc => hc.1 h
      · exact fun hc => hc.2 (by omega)
    have hc2 : labels.length ≠ (binEdges (rows.map (·.clv)) q).length - 1 := by
      omega
    simp [create_segments, qcut, hc, hlab, hc2]
  · intro hg hlab heq
    have hc : ¬ (¬ (binEdges (rows.map (·.clv)) q).Nodup ∧
        (binEdges (rows.map (·.clv)) q).length ≠ 2) := by
      rcases hg with h | h
      · exact fun hc => hc.1 h
      · exact fun hc => hc.2 (by omega)
    have hc2 : ¬ labels.length ≠ (binEdges (rows.map (·.clv)) q).length - 1 := by
      omega
    refine ⟨sortDescByClv (rows.zip ((rows.map (·.clv)).map fun x =>
        labels.getD (((binEdges (rows.map (·.clv)) q).drop 1).countP
          fun e => decide (e < x)) "")), ?_, ?_,
      sortDescByClv_pairwise _⟩
    · simp [create_segments, qcut, hc, hlab, hc2]
    · have hperm := (sortDescByClv_perm (rows.zip ((rows.map (·.clv)).map
        fun x => labels.getD (((binEdges (rows.map (·.clv)) q).drop 1).countP
          fun e => decide (e < x)) ""))).map
        (fun p : SegRow × String => p.1)
      have hzip : (rows.zip ((rows.map (·.clv)).map fun x =>
          labels.getD (((binEdges (rows.map (·.clv)) q).drop 1).countP
            fun e => decide (e < x)) "")).map
          (fun p : SegRow × String => p.1) = rows := by
        refine List.map_fst_zip rows _ ?_
        simp
      rwa [hzip] at hperm

/-- The segmenter input with exactly two distinct CLV values, 0 and 1. -/
def segRows2 : List SegRow := [⟨1, 0⟩, ⟨2, 1⟩]

/-- C5 counterexample: with 2 distinct CLV values and 4 requested
segments (2 < 4), `create_segments` does not raise — the interpolated
quantile edges of {0, 1} are the five distinct values 0, 1/4, 1/2, 3/4,
1, so the quantile cut succeeds. -/
theorem C5_counterexample :
    (segRows2.map (·.clv)).dedup.length = 2 ∧ 2 < 4 ∧
    (create_segments segRows2 4 ["D", "C", "B", "A"]).isOk = true := by
  have hedges : binEdges (segRows2.map (·.clv)) 4
      = [0, 1/4, 1/2, 3/4, 1] := by
    norm_num [binEdges, segRows2, quantileSorted, sortAsc, insertAsc,
      List.range_succ, List.getD]
  have hnodup : (binEdges (segRows2.map (·.clv)) 4).Nodup := by
    rw [hedges]
    norm_num [List.nodup_cons]
  have hlen := binEdges_length (segRows2.map (·.clv)) 4
  have hc : ¬ (¬ (binEdges (segRows2.map (·.clv)) 4).Nodup ∧
      (binEdges (segRows2.map (·.clv)) 4).length ≠ 2) :=
    fun hc => hc.1 hnodup
  have hlab : (["D", "C", "B", "A"] : List String).Nodup := by decide
  have hc2 : ¬ (["D", "C", "B", "A"] : List String).length ≠
      (binEdges (segRows2.map (·.clv)) 4).length - 1 := by
    rw [hlen]
    norm_num
  refine ⟨?_, by norm_num, ?_⟩
  · norm_num [segRows2, List.dedup_cons_of_not_mem]
  · simp [create_segments, qcut, hc, hnodup, hlab, hc2, hlen]
    rfl

/-- Witness for the amended C5 at `segRows2` with 4 segments: the cut
succeeds, every customer is labeled, and the output is sorted descending
by CLV. -/
theorem C5_create_segments_quantile_witness :
    ∃ out, create_segments segRows2 4 ["D", "C", "B", "A"] = .ok out ∧
      (out.map (·.1)).Perm segRows2 ∧
      out.Pairwise fun a b => b.1.clv ≤ a.1.clv := by
  have hedges : binEdges (segRows2.map (·.clv)) 4
      = [0, 1/4, 1/2, 3/4, 1] := by
    norm_num [binEdges, segRows2, quantileSorted, sortAsc, insertAsc,
      List.range_succ, List.getD]
  refine (C5_create_segments_quantile segRows2 4 ["D", "C", "B", "A"]).2.2
    (Or.inl ?_) (by decide) rfl
  rw [hedges]
  norm_num [List.nodup_cons]

end CLV
